import Mathlib

/-!
Verification of the nexa-agents metrics-service proxy
(`metrics-service/src/main.rs`): a shallow embedding of the traffic
aggregator, the proxy request handler, the token-metrics ledger and the
system-metrics builder, with theorems settling the specification claims.

Rust `HashMap<K, u64>` counters are embedded as association lists with a
`bump` operation mirroring `entry(k).or_insert(0); *counter += v`.
Rust `f64`/`f32` values are embedded as `ℚ`; `u64`/`u16` as `ℕ`.
The Rust index expression `hourly_requests[current_hour] += 1` panics when
the index is out of bounds, so `recordIngress` (and everything built on it)
returns an `Option`, `none` being the panic.
-/

namespace NexaMetrics

section MapOps

variable {α : Type} [DecidableEq α]

/-- `HashMap` counter update `entry(k).or_insert(0); *counter += v`:
the first entry with key `k` gets `v` added, a missing key is inserted
with value `v`. -/
def bump : List (α × ℕ) → α → ℕ → List (α × ℕ)
  | [], k, v => [(k, v)]
  | (k', v') :: rest, k, v =>
      if k' = k then (k', v' + v) :: rest else (k', v') :: bump rest k v

/-- Counter lookup with default 0 (a missing `HashMap` key reads as 0). -/
def lookup0 : List (α × ℕ) → α → ℕ
  | [], _ => 0
  | (k, v) :: rest, q => if k = q then v else lookup0 rest q

/-- Sum of all counter values in the map. -/
def sumVals (m : List (α × ℕ)) : ℕ := (m.map Prod.snd).sum

theorem sumVals_bump (m : List (α × ℕ)) (k : α) (v : ℕ) :
    sumVals (bump m k v) = sumVals m + v := by
  induction m with
  | nil => simp [bump, sumVals]
  | cons kv rest ih =>
      obtain ⟨k', v'⟩ := kv
      by_cases h : k' = k
      · simp [bump, h, sumVals]
        omega
      · simp [bump, h, sumVals] at ih ⊢
        omega

theorem lookup0_bump (m : List (α × ℕ)) (k q : α) (v : ℕ) :
    lookup0 (bump m k v) q = lookup0 m q + (if k = q then v else 0) := by
  induction m with
  | nil =>
      by_cases h : k = q <;> simp [bump, lookup0, h]
  | cons kv rest ih =>
      obtain ⟨k', v'⟩ := kv
      by_cases h : k' = k
      · subst h
        by_cases hq : k' = q
        · simp [bump, lookup0, hq]
        · simp [bump, lookup0, hq]
      · by_cases hq : k' = q
        · subst hq
          simp [bump, h, lookup0]
          intro hkq
          exact absurd hkq.symm h
        · simp [bump, h, lookup0, hq, ih]

end MapOps

/-- `TrafficMetrics` (main.rs lines 59-84).  `u64` fields as `ℕ`,
`f64` as `ℚ`, `HashMap` as association list, `[u64; 24]` as a list. -/
structure TrafficMetrics where
  total_requests : ℕ
  requests_by_endpoint : List (String × ℕ)
  responses_by_status : List (ℕ × ℕ)
  total_bytes_in : ℕ
  total_bytes_out : ℕ
  avg_response_time_ms : ℚ
  response_times : List (String × List ℚ)
  requests_by_user_agent : List (String × ℕ)
  hourly_requests : List ℕ
  last_updated : ℕ
  deriving DecidableEq, Repr

/-- `TrafficMetrics::default()`: zero counters, empty maps, 24 zeroed
hourly slots. -/
def initTraffic : TrafficMetrics :=
  { total_requests := 0
    requests_by_endpoint := []
    responses_by_status := []
    total_bytes_in := 0
    total_bytes_out := 0
    avg_response_time_ms := 0
    response_times := []
    requests_by_user_agent := []
    hourly_requests := List.replicate 24 0
    last_updated := 0 }

/-- Modelled from the spec: `chrono::Local::now().hour()` (main.rs line
131) — the local wall-clock hour of the arrival instant, always in
`[0, 24)`; embedded as the hour-of-day of an arrival timestamp `t` in
seconds. The chrono library itself is not part of this repository's
sources. -/
def localHour (t : ℕ) : ℕ := t % 86400 / 3600

theorem localHour_lt (t : ℕ) : localHour t < 24 := by
  have h : t % 86400 < 86400 := Nat.mod_lt t (by norm_num)
  unfold localHour
  exact (Nat.div_lt_iff_lt_mul (by norm_num)).mpr (by omega)

/-- Ingress accounting (main.rs lines 107-139): increments
`total_requests`, `requests_by_endpoint[path]`, `total_bytes_in`,
`requests_by_user_agent[ua]` when a user-agent header is present,
`hourly_requests[hour]`, and sets `last_updated`. `none` models the Rust
index panic when `hour` is out of the array's bounds. -/
def recordIngress (s : TrafficMetrics) (path : String) (bodyLen : ℕ)
    (ua : Option String) (hour now : ℕ) : Option TrafficMetrics :=
  if h : hour < s.hourly_requests.length then
    some { s with
      total_requests := s.total_requests + 1
      requests_by_endpoint := bump s.requests_by_endpoint path 1
      total_bytes_in := s.total_bytes_in + bodyLen
      requests_by_user_agent :=
        match ua with
        | some u => bump s.requests_by_user_agent u 1
        | none => s.requests_by_user_agent
      hourly_requests :=
        s.hourly_requests.set hour (s.hourly_requests.get ⟨hour, h⟩ + 1)
      last_updated := now }
  else
    none

/-- The trim step of main.rs lines 221-226: keep only the latest 100
entries whenever more than 100 are stored. -/
def trimList (l : List ℚ) : List ℚ :=
  if l.length > 100 then l.drop (l.length - 100) else l

/-- `response_times.entry(path).or_insert_with(Vec::new).push(elapsed)`
(main.rs lines 215-218). -/
def appendTime : List (String × List ℚ) → String → ℚ → List (String × List ℚ)
  | [], p, e => [(p, [e])]
  | (k, l) :: rest, p, e =>
      if k = p then (k, l ++ [e]) :: rest else (k, l) :: appendTime rest p e

/-- `if let Some(times) = response_times.get_mut(path) { trim }`
(main.rs lines 221-226). -/
def trimAt : List (String × List ℚ) → String → List (String × List ℚ)
  | [], _ => []
  | (k, l) :: rest, p =>
      if k = p then (k, trimList l) :: rest else (k, l) :: trimAt rest p

/-- Read a path's stored latency list (missing key reads as empty). -/
def lookupTimes : List (String × List ℚ) → String → List ℚ
  | [], _ => []
  | (k, l) :: rest, p => if k = p then l else lookupTimes rest p

/-- Egress accounting (main.rs lines 190-227): bump
`responses_by_status[status]`, add to `total_bytes_out`, update the
running mean (`(avg·(n-1)+elapsed)/n` when `total_requests > 1`, else
`elapsed`), append `elapsed` to `response_times[path]` and trim to the
latest 100. -/
def recordEgress (s : TrafficMetrics) (path : String) (status : ℕ)
    (bodyLen : ℕ) (elapsed : ℚ) : TrafficMetrics :=
  { s with
    responses_by_status := bump s.responses_by_status status 1
    total_bytes_out := s.total_bytes_out + bodyLen
    avg_response_time_ms :=
      if s.total_requests > 1 then
        (s.avg_response_time_ms * ((s.total_requests : ℚ) - 1) + elapsed)
          / (s.total_requests : ℚ)
      else elapsed
    response_times := trimAt (appendTime s.response_times path elapsed) path }

/-- The fixed backend origin (main.rs line 13). -/
def BACKEND_URL : String := "http://localhost:3001"

/-- An inbound HTTP request: method, path, optional query string,
headers (lowercase names, as actix normalizes them) and body bytes
(embedded as a `String`; only its length matters to the metrics). -/
structure Request where
  method : String
  path : String
  query : Option String
  headers : List (String × String)
  body : String
  deriving DecidableEq, Repr

/-- The request the handler hands to the `awc` client: method, target
URL, forwarded headers and the forwarded body. -/
structure BackendCall where
  method : String
  url : String
  headers : List (String × String)
  body : String
  deriving DecidableEq, Repr

/-- The environment's behaviour for the backend round trip:
`transportError` is a failure of `send_body` (main.rs line 162),
`bodyError` a failure of `response.body()` after status and headers
arrived (main.rs line 181), `success` a complete response. -/
inductive BackendResult where
  | transportError (err : String)
  | bodyError (status : ℕ) (headers : List (String × String)) (err : String)
  | success (status : ℕ) (headers : List (String × String)) (body : String)
  deriving DecidableEq, Repr

/-- The HTTP response returned to the client. -/
structure HttpResponse where
  status : ℕ
  headers : List (String × String)
  body : String
  deriving DecidableEq, Repr

/-- What one run of the handler produced: the client response, the
backend call it made (`none` when no backend call happened) and the
traffic state afterwards. -/
structure ProxyOutcome where
  response : HttpResponse
  call : Option BackendCall
  state : TrafficMetrics
  deriving DecidableEq, Repr

/-- First header value with the given (lowercase) name, mirroring
`req.headers().get(...)`. -/
def headerLookup : List (String × String) → String → Option String
  | [], _ => none
  | (k, v) :: rest, q => if k = q then some v else headerLookup rest q

/-- The method allow-list of the `match` on main.rs lines 142-154. -/
def supportedMethod (m : String) : Bool :=
  m = "GET" ∨ m = "POST" ∨ m = "PUT" ∨ m = "DELETE" ∨ m = "PATCH" ∨
    m = "HEAD" ∨ m = "OPTIONS"

/-- The query-string suffix of the target URL (main.rs line 97):
`"?" ++ q` when a query is present, `""` otherwise. -/
def queryPart : Option String → String
  | none => ""
  | some q => "?" ++ q

/-- `proxy_handler` (main.rs lines 87-231), for one request executed in
isolation. `t` is the arrival timestamp (only its local hour is used),
`now` the value written to `last_updated`, `elapsed` the measured round
trip latency in ms, `backend` the backend's behaviour. Steps, in source
order: build the target URL; take the ingress critical section; match
the method (405 on anything unsupported, before any backend call);
forward all headers except Host; send; on transport failure return 500
with `Proxy error: ...`; copy status and non-Content-Length headers; on
body-read failure return 500 with `Error reading response: ...`; take
the egress critical section; return the relayed response. `none` is the
hourly-index panic. -/
def proxy_handler (req : Request) (backend : BackendResult) (t now : ℕ)
    (elapsed : ℚ) (s : TrafficMetrics) : Option ProxyOutcome :=
  let target_url := BACKEND_URL ++ req.path ++ queryPart req.query
  match recordIngress s req.path req.body.length
      (headerLookup req.headers "user-agent") (localHour t) now with
  | none => none
  | some s1 =>
    if supportedMethod req.method then
      let call : BackendCall :=
        { method := req.method
          url := target_url
          headers := req.headers.filter (fun h => h.1 ≠ "host")
          body := req.body }
      match backend with
      | .transportError err =>
          some { response := { status := 500, headers := [],
                               body := "Proxy error: " ++ err }
                 call := some call
                 state := s1 }
      | .bodyError _ _ err =>
          some { response := { status := 500, headers := [],
                               body := "Error reading response: " ++ err }
                 call := some call
                 state := s1 }
      | .success bStatus bHeaders bBody =>
          some { response :=
                   { status := bStatus
                     headers := bHeaders.filter
                       (fun h => h.1 ≠ "content-length")
                     body := bBody }
                 call := some call
                 state := recordEgress s1 req.path bStatus bBody.length
                   elapsed }
    else
      some { response := { status := 405, headers := [], body := "" }
             call := none
             state := s1 }

/-- One aggregator write, for reasoning about reachable states:
an ingress critical section or an egress critical section. -/
inductive Op where
  | ingress (path : String) (bodyLen : ℕ) (ua : Option String)
      (hour now : ℕ)
  | egress (path : String) (status : ℕ) (bodyLen : ℕ) (elapsed : ℚ)

/-- The path an operation touches. -/
def Op.path : Op → String
  | .ingress p _ _ _ _ => p
  | .egress p _ _ _ => p

/-- Whether an operation is an ingress write. -/
def Op.isIngress : Op → Bool
  | .ingress _ _ _ _ _ => true
  | .egress _ _ _ _ => false

/-- Apply one aggregator write to the state. -/
def applyOp (s : TrafficMetrics) : Op → Option TrafficMetrics
  | .ingress p b ua h n => recordIngress s p b ua h n
  | .egress p st b e => some (recordEgress s p st b e)

/-- Run a sequence of aggregator writes. -/
def execOps (s : TrafficMetrics) : List Op → Option TrafficMetrics
  | [] => some s
  | op :: rest =>
      match applyOp s op with
      | none => none
      | some s1 => execOps s1 rest

/-- Number of ingress writes in a sequence. -/
def countIngress (ops : List Op) : ℕ := ops.countP (fun op => op.isIngress)

/-- Number of egress writes in a sequence. -/
def countEgress (ops : List Op) : ℕ := ops.countP (fun op => !op.isIngress)

/-- `TokenMetrics` (main.rs lines 49-56). -/
structure TokenMetrics where
  total_processed : ℕ
  input_tokens : ℕ
  output_tokens : ℕ
  by_model : List (String × ℕ)
  timestamp : ℕ
  deriving DecidableEq, Repr

/-- The empty ledger the process starts with (main.rs lines 303-312). -/
def initTokens (now : ℕ) : TokenMetrics :=
  { total_processed := 0, input_tokens := 0, output_tokens := 0,
    by_model := [], timestamp := now }

/-- `TokenUsageRequest` (main.rs lines 290-296). -/
structure TokenUsageRequest where
  model : Option String
  total : ℕ
  input : Option ℕ
  output : Option ℕ
  deriving DecidableEq, Repr

/-- `update_token_metrics` (main.rs lines 262-287): add `total` to
`total_processed`, `input.unwrap_or(0)` to `input_tokens`,
`output.unwrap_or(0)` to `output_tokens`, set `timestamp`, and when a
model is named add `total` to `by_model[model]`. -/
def update_token_metrics (s : TokenMetrics) (payload : TokenUsageRequest)
    (now : ℕ) : TokenMetrics :=
  let s1 : TokenMetrics :=
    { s with
      total_processed := s.total_processed + payload.total
      input_tokens := s.input_tokens + payload.input.getD 0
      output_tokens := s.output_tokens + payload.output.getD 0
      timestamp := now }
  match payload.model with
  | some m => { s1 with by_model := bump s1.by_model m payload.total }
  | none => s1

/-- `CpuMetrics` (main.rs lines 33-38); `f32` as `ℚ`. -/
structure CpuMetrics where
  usage : ℚ
  cores : ℕ
  model : String
  deriving DecidableEq, Repr

/-- `MemoryMetrics` (main.rs lines 40-46). -/
structure MemoryMetrics where
  total : ℕ
  free : ℕ
  used : ℕ
  usage_percent : ℚ
  deriving DecidableEq, Repr

/-- `SystemMetrics` (main.rs lines 24-31). -/
structure SystemMetrics where
  cpu : CpuMetrics
  memory : MemoryMetrics
  uptime : ℕ
  server_uptime : ℕ
  timestamp : ℕ
  deriving DecidableEq, Repr

/-- `build_system_metrics` (main.rs lines 349-388). The sysinfo probe is
an external collaborator; its readings (`cpuUsage`, the per-core brand
list, memory totals, uptimes, the clock) are inputs. `usage_percent` is
`used/total*100` guarded by `total_memory() > 0`, else `0`. -/
def build_system_metrics (cpuUsage : ℚ) (cpuBrands : List String)
    (totalMem freeMem usedMem : ℕ) (hostUptime serverUptime ts : ℕ) :
    SystemMetrics :=
  { cpu :=
      { usage := cpuUsage
        cores := cpuBrands.length
        model :=
          match cpuBrands with
          | [] => "Unknown CPU"
          | b :: _ => b }
    memory :=
      { total := totalMem
        free := freeMem
        used := usedMem
        usage_percent :=
          if totalMem > 0 then
            ((usedMem : ℚ) / (totalMem : ℚ)) * 100
          else 0 }
    uptime := hostUptime
    server_uptime := serverUptime
    timestamp := ts }

/-- A concrete TRACE request used as test input. -/
def sampleTraceRequest : Request :=
  { method := "TRACE", path := "/api/x", query := none,
    headers := [("user-agent", "curl")], body := "ab" }

/-- A concrete GET request used as test input. -/
def sampleGetRequest : Request :=
  { method := "GET", path := "/api/x", query := some "a=1",
    headers := [("host", "h"), ("user-agent", "curl")], body := "" }

/-- A concrete write sequence used as test input: two requests to the
path `/p`, the first completing its round trip, the second still in
flight. -/
def sampleOps : List Op :=
  [Op.ingress "/p" 3 (some "curl") 2 10,
   Op.egress "/p" 200 5 7,
   Op.ingress "/p" 0 none 4 11]

/-- 101 distinct latency samples used as test input. -/
def sampleLatencies : List ℚ := (List.range 101).map (fun n => (n : ℚ))

/-- A traffic state one ingress write past empty, used as test input. -/
def oneRequestState : TrafficMetrics :=
  { initTraffic with
      total_requests := 1
      requests_by_endpoint := [("/p", 1)]
      total_bytes_in := 3 }

/- ======================  theorems  ====================== -/

theorem recordIngress_fields {s : TrafficMetrics} {path : String} {b : ℕ}
    {ua : Option String} {hour now : ℕ} {s1 : TrafficMetrics}
    (h : recordIngress s path b ua hour now = some s1) :
    s1.total_requests = s.total_requests + 1 ∧
    s1.requests_by_endpoint = bump s.requests_by_endpoint path 1 ∧
    s1.total_bytes_in = s.total_bytes_in + b ∧
    s1.responses_by_status = s.responses_by_status ∧
    s1.total_bytes_out = s.total_bytes_out ∧
    s1.avg_response_time_ms = s.avg_response_time_ms ∧
    s1.response_times = s.response_times ∧
    s1.last_updated = now := by
  unfold recordIngress at h
  split at h
  · injection h with h
    subst h
    simp
  · cases h

theorem recordIngress_isSome (s : TrafficMetrics) (path : String) (b : ℕ)
    (ua : Option String) (hour now : ℕ)
    (h : hour < s.hourly_requests.length) :
    (recordIngress s path b ua hour now).isSome = true := by
  unfold recordIngress
  rw [dif_pos h]
  rfl

/-- C3: the running-mean update.  For every egress write against a state
whose `total_requests` is `n ≥ 1`, the new `avg_response_time_ms` equals
`(avg·(n-1) + elapsed) / n`; in particular when `n = 1` (exactly one
request) the stored average is exactly the measured latency. -/
theorem avg_response_time_update (s : TrafficMetrics) (path : String)
    (status blen : ℕ) (elapsed : ℚ) (h : 1 ≤ s.total_requests) :
    (recordEgress s path status blen elapsed).avg_response_time_ms =
      (s.avg_response_time_ms * ((s.total_requests : ℚ) - 1) + elapsed)
        / (s.total_requests : ℚ) ∧
    (s.total_requests = 1 →
      (recordEgress s path status blen elapsed).avg_response_time_ms
        = elapsed) := by
  rw [recordEgress]
  by_cases h1 : s.total_requests > 1
  · constructor
    · simp [h1]
    · intro h2
      omega
  · have h2 : s.total_requests = 1 := by omega
    constructor
    · simp [h1, h2]
    · intro _
      simp [h1]

/-- C3 witness: on a state with exactly one request recorded, a measured
latency of 7 ms is stored as the average exactly. -/
theorem avg_response_time_update_witness :
    (recordEgress oneRequestState "/p" 200 5 7).avg_response_time_ms = 7 :=
  (avg_response_time_update oneRequestState "/p" 200 5 7 (by decide)).2 rfl

/-- C7: `update_token_metrics` adds `total` to `total_processed`,
`input.unwrap_or(0)` to `input_tokens`, `output.unwrap_or(0)` to
`output_tokens`, and adds `total` to `by_model[model]` exactly when the
payload names that model; and the spec's two-post example from the empty
ledger yields `(15, 4, 6, gpt ↦ 15)`. -/
theorem update_token_metrics_spec (s : TokenMetrics)
    (payload : TokenUsageRequest) (now t0 : ℕ) :
    (update_token_metrics s payload now).total_processed
        = s.total_processed + payload.total ∧
    (update_token_metrics s payload now).input_tokens
        = s.input_tokens + payload.input.getD 0 ∧
    (update_token_metrics s payload now).output_tokens
        = s.output_tokens + payload.output.getD 0 ∧
    (∀ m : String, lookup0 (update_token_metrics s payload now).by_model m
        = lookup0 s.by_model m
          + (if payload.model = some m then payload.total else 0)) ∧
    update_token_metrics
        (update_token_metrics (initTokens t0)
          { model := some "gpt", total := 10, input := some 4,
            output := some 6 } now)
        { model := some "gpt", total := 5, input := none, output := none }
        now
      = { total_processed := 15, input_tokens := 4, output_tokens := 6,
          by_model := [("gpt", 15)], timestamp := now } := by
  refine ⟨?_, ?_, ?_, ?_, ?_⟩
  · cases hm : payload.model <;> simp [update_token_metrics, hm]
  · cases hm : payload.model <;> simp [update_token_metrics, hm]
  · cases hm : payload.model <;> simp [update_token_metrics, hm]
  · intro m
    cases hm : payload.model with
    | none => simp [update_token_metrics, hm]
    | some m0 =>
        rw [update_token_metrics]
        simp only [hm]
        rw [lookup0_bump]
        by_cases he : m0 = m <;> simp [he]
  · simp [update_token_metrics, initTokens, bump]

/-- C9: `usage_percent` is `used/total*100` whenever the probe reports a
positive memory total, and is exactly `0` when the reported total is
`0` (the guarded branch, so no division by zero is ever evaluated). -/
theorem usage_percent_spec (cpuUsage : ℚ) (cpuBrands : List String)
    (totalMem freeMem usedMem hostUptime serverUptime ts : ℕ) :
    (0 < totalMem →
      (build_system_metrics cpuUsage cpuBrands totalMem freeMem usedMem
          hostUptime serverUptime ts).memory.usage_percent
        = ((usedMem : ℚ) / (totalMem : ℚ)) * 100) ∧
    (totalMem = 0 →
      (build_system_metrics cpuUsage cpuBrands totalMem freeMem usedMem
          hostUptime serverUptime ts).memory.usage_percent = 0) := by
  constructor
  · intro h
    simp [build_system_metrics, h]
  · intro h
    simp [build_system_metrics, h]

/-- C9 witness: a 2-byte total with 1 byte used reads 50 %, and a zero
total reads exactly 0. -/
theorem usage_percent_spec_witness :
    (build_system_metrics 0 [] 2 1 1 0 0 0).memory.usage_percent
        = ((1 : ℚ) / (2 : ℚ)) * 100 ∧
    (build_system_metrics 0 [] 0 0 5 0 0 0).memory.usage_percent = 0 :=
  ⟨(usage_percent_spec 0 [] 2 1 1 0 0 0).1 (by decide),
   (usage_percent_spec 0 [] 0 0 5 0 0 0).2 rfl⟩

/-- C1 counterexample: a TRACE request against the empty aggregator does
return 405 without a backend call, but the traffic counters for its path
are NOT left unchanged — the ingress critical section (main.rs lines
107-139) runs before the method check (lines 142-154), so
`total_requests`, `requests_by_endpoint["/api/x"]`, `total_bytes_in` and
`requests_by_user_agent["curl"]` all move. -/
theorem trace_counters_changed :
    (proxy_handler sampleTraceRequest (.success 200 [] "") 0 0 0
        initTraffic).map
      (fun o => (o.response.status, o.call, o.state.total_requests,
        lookup0 o.state.requests_by_endpoint "/api/x",
        o.state.total_bytes_in,
        lookup0 o.state.requests_by_user_agent "curl"))
    = some (405, none, 1, 1, 2, 1) ∧
    initTraffic.total_requests = 0 ∧
    lookup0 initTraffic.requests_by_endpoint "/api/x" = 0 ∧
    initTraffic.total_bytes_in = 0 ∧
    lookup0 initTraffic.requests_by_user_agent "curl" = 0 := by
  refine ⟨?_, rfl, rfl, rfl, rfl⟩
  rfl

/-- C1 (amended): a request whose method is outside the allow-list gets
405 with no backend call and no egress accounting (`responses_by_status`,
`total_bytes_out`, `avg_response_time_ms`, `response_times` unchanged),
but its ingress accounting has already run: `total_requests` and
`requests_by_endpoint[path]` grow by 1 and `total_bytes_in` by the body
length. -/
theorem unsupported_method_405 (req : Request) (backend : BackendResult)
    (t now : ℕ) (elapsed : ℚ) (s : TrafficMetrics)
    (hm : supportedMethod req.method = false)
    (hl : s.hourly_requests.length = 24) :
    ∃ s1, recordIngress s req.path req.body.length
        (headerLookup req.headers "user-agent") (localHour t) now
        = some s1 ∧
      proxy_handler req backend t now elapsed s =
        some { response := { status := 405, headers := [], body := "" },
               call := none, state := s1 } ∧
      s1.responses_by_status = s.responses_by_status ∧
      s1.total_bytes_out = s.total_bytes_out ∧
      s1.avg_response_time_ms = s.avg_response_time_ms ∧
      s1.response_times = s.response_times ∧
      s1.total_requests = s.total_requests + 1 ∧
      lookup0 s1.requests_by_endpoint req.path
        = lookup0 s.requests_by_endpoint req.path + 1 ∧
      s1.total_bytes_in = s.total_bytes_in + req.body.length := by
  have hlt : localHour t < s.hourly_requests.length := by
    rw [hl]
    exact localHour_lt t
  obtain ⟨s1, hI⟩ := Option.isSome_iff_exists.mp
    (recordIngress_isSome s req.path req.body.length
      (headerLookup req.headers "user-agent") (localHour t) now hlt)
  obtain ⟨f1, f2, f3, f4, f5, f6, f7, _⟩ := recordIngress_fields hI
  refine ⟨s1, hI, ?_, f4, f5, f6, f7, f1, ?_, f3⟩
  · simp only [proxy_handler, hI, hm]
    rfl
  · rw [f2, lookup0_bump]
    simp

/-- C1 witness: the concrete TRACE request, against the empty
aggregator. -/
theorem unsupported_method_405_witness :
    ∃ s1, recordIngress initTraffic "/api/x" 2 (some "curl") (localHour 0) 0
        = some s1 ∧
      proxy_handler sampleTraceRequest (.success 200 [] "") 0 0 0
          initTraffic =
        some { response := { status := 405, headers := [], body := "" },
               call := none, state := s1 } ∧
      s1.responses_by_status = initTraffic.responses_by_status ∧
      s1.total_bytes_out = initTraffic.total_bytes_out ∧
      s1.avg_response_time_ms = initTraffic.avg_response_time_ms ∧
      s1.response_times = initTraffic.response_times ∧
      s1.total_requests = initTraffic.total_requests + 1 ∧
      lookup0 s1.requests_by_endpoint "/api/x"
        = lookup0 initTraffic.requests_by_endpoint "/api/x" + 1 ∧
      s1.total_bytes_in = initTraffic.total_bytes_in + 2 :=
  unsupported_method_405 sampleTraceRequest (.success 200 [] "") 0 0 0
    initTraffic (by decide) (by decide)

/-- C5: when forwarding fails — transport error on send, or a failure
while reading the backend body — the handler returns 500 carrying the
diagnostic error text, the ingress write stays recorded
(`total_requests` grew by 1), and no egress write happens:
`responses_by_status`, `total_bytes_out`, `avg_response_time_ms` and
`response_times` are exactly the pre-request values. -/
theorem forward_failure_500 (req : Request) (t now : ℕ) (elapsed : ℚ)
    (s : TrafficMetrics) (err : String) (bSt : ℕ)
    (bHdrs : List (String × String))
    (hm : supportedMethod req.method = true)
    (hl : s.hourly_requests.length = 24) :
    ∃ s1, recordIngress s req.path req.body.length
        (headerLookup req.headers "user-agent") (localHour t) now
        = some s1 ∧
      s1.total_requests = s.total_requests + 1 ∧
      s1.responses_by_status = s.responses_by_status ∧
      s1.total_bytes_out = s.total_bytes_out ∧
      s1.avg_response_time_ms = s.avg_response_time_ms ∧
      s1.response_times = s.response_times ∧
      (proxy_handler req (.transportError err) t now elapsed s).map
          (fun o => (o.response, o.state)) =
        some ({ status := 500, headers := [],
                body := "Proxy error: " ++ err }, s1) ∧
      (proxy_handler req (.bodyError bSt bHdrs err) t now elapsed s).map
          (fun o => (o.response, o.state)) =
        some ({ status := 500, headers := [],
                body := "Error reading response: " ++ err }, s1) := by
  have hlt : localHour t < s.hourly_requests.length := by
    rw [hl]
    exact localHour_lt t
  obtain ⟨s1, hI⟩ := Option.isSome_iff_exists.mp
    (recordIngress_isSome s req.path req.body.length
      (headerLookup req.headers "user-agent") (localHour t) now hlt)
  obtain ⟨f1, _, _, f4, f5, f6, f7, _⟩ := recordIngress_fields hI
  refine ⟨s1, hI, f1, f4, f5, f6, f7, ?_, ?_⟩
  · simp only [proxy_handler, hI, hm]
    rfl
  · simp only [proxy_handler, hI, hm]
    rfl

/-- C5 witness: the concrete GET request with a failing backend. -/
theorem forward_failure_500_witness :
    ∃ s1, recordIngress initTraffic "/api/x" 0 (some "curl") (localHour 0) 0
        = some s1 ∧
      s1.total_requests = initTraffic.total_requests + 1 ∧
      s1.responses_by_status = initTraffic.responses_by_status ∧
      s1.total_bytes_out = initTraffic.total_bytes_out ∧
      s1.avg_response_time_ms = initTraffic.avg_response_time_ms ∧
      s1.response_times = initTraffic.response_times ∧
      (proxy_handler sampleGetRequest (.transportError "boom") 0 0 0
          initTraffic).map (fun o => (o.response, o.state)) =
        some ({ status := 500, headers := [],
                body := "Proxy error: " ++ "boom" }, s1) ∧
      (proxy_handler sampleGetRequest (.bodyError 200 [] "boom") 0 0 0
          initTraffic).map (fun o => (o.response, o.state)) =
        some ({ status := 500, headers := [],
                body := "Error reading response: " ++ "boom" }, s1) :=
  forward_failure_500 sampleGetRequest 0 0 0 initTraffic "boom" 200 []
    (by decide) (by decide)

/-- C8: on a successful round trip the backend call carries the
concatenated URL (origin ++ path ++ query part), the original headers
minus Host, and the original body; the client response carries the
backend's status, the backend headers minus Content-Length, and the full
backend body. -/
theorem success_relay (req : Request) (t now : ℕ) (elapsed : ℚ)
    (s : TrafficMetrics) (bStatus : ℕ) (bHeaders : List (String × String))
    (bBody : String)
    (hm : supportedMethod req.method = true)
    (hl : s.hourly_requests.length = 24) :
    ∃ o, proxy_handler req (.success bStatus bHeaders bBody) t now elapsed s
        = some o ∧
      o.call = some
        { method := req.method
          url := BACKEND_URL ++ req.path ++ queryPart req.query
          headers := req.headers.filter (fun h => h.1 ≠ "host")
          body := req.body } ∧
      o.response.status = bStatus ∧
      o.response.headers = bHeaders.filter
        (fun h => h.1 ≠ "content-length") ∧
      o.response.body = bBody := by
  have hlt : localHour t < s.hourly_requests.length := by
    rw [hl]
    exact localHour_lt t
  obtain ⟨s1, hI⟩ := Option.isSome_iff_exists.mp
    (recordIngress_isSome s req.path req.body.length
      (headerLookup req.headers "user-agent") (localHour t) now hlt)
  refine ⟨{ response :=
              { status := bStatus
                headers := bHeaders.filter
                  (fun h => h.1 ≠ "content-length")
                body := bBody }
            call := some
              { method := req.method
                url := BACKEND_URL ++ req.path ++ queryPart req.query
                headers := req.headers.filter (fun h => h.1 ≠ "host")
                body := req.body }
            state := recordEgress s1 req.path bStatus bBody.length
              elapsed },
          ?_, rfl, rfl, rfl, rfl⟩
  simp only [proxy_handler, hI, hm]
  rfl

/-- C8 witness: the concrete GET request with a successful backend
response carrying a Content-Length header. -/
theorem success_relay_witness :
    ∃ o, proxy_handler sampleGetRequest
        (.success 201 [("content-length", "2"), ("x-y", "z")] "hi")
        0 0 0 initTraffic = some o ∧
      o.call = some
        { method := "GET"
          url := BACKEND_URL ++ "/api/x" ++ queryPart (some "a=1")
          headers := sampleGetRequest.headers.filter
            (fun h => h.1 ≠ "host")
          body := "" } ∧
      o.response.status = 201 ∧
      o.response.headers =
        [("content-length", "2"), ("x-y", "z")].filter
          (fun h => h.1 ≠ "content-length") ∧
      o.response.body = "hi" :=
  success_relay sampleGetRequest 0 0 0 initTraffic 201
    [("content-length", "2"), ("x-y", "z")] "hi" (by decide) (by decide)

/-- C10: the hour index used for the `hourly_requests` write is always
in `[0, 24)`, so against any state whose hourly array has the declared
24 slots the handler never takes the out-of-bounds (panic) branch: it
always produces an outcome. -/
theorem hourly_index_in_bounds (req : Request) (backend : BackendResult)
    (t now : ℕ) (elapsed : ℚ) (s : TrafficMetrics)
    (hl : s.hourly_requests.length = 24) :
    localHour t < 24 ∧
    (proxy_handler req backend t now elapsed s).isSome = true := by
  have hlt : localHour t < s.hourly_requests.length := by
    rw [hl]
    exact localHour_lt t
  refine ⟨localHour_lt t, ?_⟩
  obtain ⟨s1, hI⟩ := Option.isSome_iff_exists.mp
    (recordIngress_isSome s req.path req.body.length
      (headerLookup req.headers "user-agent") (localHour t) now hlt)
  simp only [proxy_handler, hI]
  by_cases hm : supportedMethod req.method
  · simp only [hm]
    cases backend <;> rfl
  · simp only [hm]
    rfl

/-- C10 witness: the concrete GET request at an arbitrary late arrival
instant, against the empty aggregator. -/
theorem hourly_index_in_bounds_witness :
    localHour 123456789 < 24 ∧
    (proxy_handler sampleGetRequest (.success 200 [] "") 123456789 0 0
        initTraffic).isSome = true :=
  hourly_index_in_bounds sampleGetRequest (.success 200 [] "") 123456789 0 0
    initTraffic (by decide)

theorem applyOp_total {s s1 : TrafficMetrics} {op : Op}
    (h : applyOp s op = some s1) :
    s1.total_requests
      = s.total_requests + (if op.isIngress then 1 else 0) := by
  cases op with
  | ingress p b ua hr n =>
      have hf := recordIngress_fields h
      simp [Op.isIngress, hf.1]
  | egress p st b e =>
      simp only [applyOp, Option.some.injEq] at h
      subst h
      simp [recordEgress, Op.isIngress]

theorem applyOp_endpoint_sum {s s1 : TrafficMetrics} {op : Op}
    (h : applyOp s op = some s1) :
    sumVals s1.requests_by_endpoint
      = sumVals s.requests_by_endpoint
        + (if op.isIngress then 1 else 0) := by
  cases op with
  | ingress p b ua hr n =>
      have hf := recordIngress_fields h
      simp [Op.isIngress, hf.2.1, sumVals_bump]
  | egress p st b e =>
      simp only [applyOp, Option.some.injEq] at h
      subst h
      simp [recordEgress, Op.isIngress]

theorem applyOp_status_sum {s s1 : TrafficMetrics} {op : Op}
    (h : applyOp s op = some s1) :
    sumVals s1.responses_by_status
      = sumVals s.responses_by_status
        + (if op.isIngress then 0 else 1) := by
  cases op with
  | ingress p b ua hr n =>
      have hf := recordIngress_fields h
      simp [Op.isIngress, hf.2.2.2.1]
  | egress p st b e =>
      simp only [applyOp, Option.some.injEq] at h
      subst h
      simp [recordEgress, Op.isIngress, sumVals_bump]

theorem applyOp_endpoint_lookup {s s1 : TrafficMetrics} {op : Op}
    {P : String} (h : applyOp s op = some s1) (hp : Op.path op = P) :
    lookup0 s1.requests_by_endpoint P
      = lookup0 s.requests_by_endpoint P
        + (if op.isIngress then 1 else 0) := by
  cases op with
  | ingress p b ua hr n =>
      have hf := recordIngress_fields h
      rw [Op.path] at hp
      subst hp
      rw [hf.2.1, lookup0_bump]
      simp [Op.isIngress]
  | egress p st b e =>
      simp only [applyOp, Option.some.injEq] at h
      subst h
      simp [recordEgress, Op.isIngress]

theorem execOps_counts (ops : List Op) :
    ∀ (s s' : TrafficMetrics), execOps s ops = some s' →
    s'.total_requests = s.total_requests + countIngress ops ∧
    sumVals s'.requests_by_endpoint
      = sumVals s.requests_by_endpoint + countIngress ops ∧
    sumVals s'.responses_by_status
      = sumVals s.responses_by_status + countEgress ops := by
  induction ops with
  | nil =>
      intro s s' h
      simp only [execOps, Option.some.injEq] at h
      subst h
      simp [countIngress, countEgress]
  | cons op rest ih =>
      intro s s' h
      rw [execOps] at h
      cases hop : applyOp s op with
      | none =>
          rw [hop] at h
          cases h
      | some s1 =>
          rw [hop] at h
          obtain ⟨h1, h2, h3⟩ := ih s1 s' h
          have t1 := applyOp_total hop
          have t2 := applyOp_endpoint_sum hop
          have t3 := applyOp_status_sum hop
          refine ⟨?_, ?_, ?_⟩ <;>
            cases hIng : op.isIngress <;>
              simp [countIngress, countEgress, hIng, List.countP_cons]
                at t1 t2 t3 h1 h2 h3 ⊢ <;>
              omega

theorem execOps_lookup_single (ops : List Op) (P : String) :
    ∀ (s s' : TrafficMetrics), (∀ op ∈ ops, Op.path op = P) →
    execOps s ops = some s' →
    lookup0 s'.requests_by_endpoint P
      = lookup0 s.requests_by_endpoint P + countIngress ops := by
  induction ops with
  | nil =>
      intro s s' _ h
      simp only [execOps, Option.some.injEq] at h
      subst h
      simp [countIngress]
  | cons op rest ih =>
      intro s s' hP h
      rw [execOps] at h
      cases hop : applyOp s op with
      | none =>
          rw [hop] at h
          cases h
      | some s1 =>
          rw [hop] at h
          have h1 := ih s1 s' (fun o ho => hP o (List.mem_cons_of_mem _ ho)) h
          have t1 := applyOp_endpoint_lookup hop (hP op (List.mem_cons_self _ _))
          cases hIng : op.isIngress <;>
            simp [countIngress, hIng, List.countP_cons] at t1 h1 ⊢ <;>
            omega

/-- C2: in every state reachable from the empty aggregator by a
sequence of ingress/egress writes, `total_requests` equals the sum of
`requests_by_endpoint` over all paths; and when every write touches one
single path `P`, `total_requests` equals `requests_by_endpoint[P]`. -/
theorem total_requests_eq_endpoint_sum (ops : List Op)
    (s' : TrafficMetrics) (h : execOps initTraffic ops = some s') :
    s'.total_requests = sumVals s'.requests_by_endpoint ∧
    ∀ P : String, (∀ op ∈ ops, Op.path op = P) →
      s'.total_requests = lookup0 s'.requests_by_endpoint P := by
  obtain ⟨h1, h2, _⟩ := execOps_counts ops initTraffic s' h
  constructor
  · rw [h1, h2]
    rfl
  · intro P hP
    have h3 := execOps_lookup_single ops P initTraffic s' hP h
    rw [h1, h3]
    rfl

/-- C2 witness: the concrete three-write sequence on path `/p`. -/
theorem total_requests_eq_endpoint_sum_witness :
    ∃ s', execOps initTraffic sampleOps = some s' ∧
      s'.total_requests = sumVals s'.requests_by_endpoint ∧
      s'.total_requests = lookup0 s'.requests_by_endpoint "/p" := by
  have hs : (execOps initTraffic sampleOps).isSome = true := by decide
  obtain ⟨s', h⟩ := Option.isSome_iff_exists.mp hs
  have hc := total_requests_eq_endpoint_sum sampleOps s' h
  exact ⟨s', h, hc.1, hc.2 "/p" (by decide)⟩

/-- Whether a write sequence is a legal interleaving of per-request
histories given `p` requests already past ingress but not egress: every
egress write must belong to a request whose ingress write already
happened. -/
def validFrom : ℕ → List Op → Bool
  | _, [] => true
  | p, op :: rest =>
      match op with
      | .ingress _ _ _ _ _ => validFrom (p + 1) rest
      | .egress _ _ _ _ => p ≠ 0 && validFrom (p - 1) rest

theorem validFrom_count (ops : List Op) :
    ∀ p : ℕ, validFrom p ops = true →
    countEgress ops ≤ p + countIngress ops := by
  induction ops with
  | nil =>
      intro p _
      simp [countEgress, countIngress]
  | cons op rest ih =>
      intro p hv
      cases op with
      | ingress a b c d e =>
          rw [validFrom] at hv
          have := ih (p + 1) hv
          simp [countEgress, countIngress, List.countP_cons,
            Op.isIngress] at this ⊢
          omega
      | egress a b c d =>
          rw [validFrom, Bool.and_eq_true] at hv
          have hp : p ≠ 0 := by
            simpa using hv.1
          have := ih (p - 1) hv.2
          simp [countEgress, countIngress, List.countP_cons,
            Op.isIngress] at this ⊢
          omega

/-- C6: in every state reachable from the empty aggregator by a legal
interleaving of per-request writes (each egress preceded by its own
ingress, failed requests contributing no egress), the sum over all
status codes of `responses_by_status` is at most `total_requests`. -/
theorem status_sum_le_total_requests (ops : List Op)
    (s' : TrafficMetrics) (hv : validFrom 0 ops = true)
    (h : execOps initTraffic ops = some s') :
    sumVals s'.responses_by_status ≤ s'.total_requests := by
  obtain ⟨h1, _, h3⟩ := execOps_counts ops initTraffic s' h
  have hcount := validFrom_count ops 0 hv
  rw [h1, h3]
  simp [initTraffic, sumVals]
  omega

/-- C6 witness: the concrete three-write sequence, a legal interleaving
with one completed and one in-flight request. -/
theorem status_sum_le_total_requests_witness :
    ∃ s', execOps initTraffic sampleOps = some s' ∧
      sumVals s'.responses_by_status ≤ s'.total_requests := by
  have hs : (execOps initTraffic sampleOps).isSome = true := by decide
  obtain ⟨s', h⟩ := Option.isSome_iff_exists.mp hs
  exact ⟨s', h, status_sum_le_total_requests sampleOps s' (by decide) h⟩

theorem trimList_eq (l : List ℚ) :
    trimList l = l.drop (l.length - 100) := by
  rw [trimList]
  split
  · rfl
  · next h =>
      have h0 : l.length - 100 = 0 := by omega
      rw [h0, List.drop_zero]

theorem lookupTimes_appendTime (m : List (String × List ℚ)) (p : String)
    (e : ℚ) :
    lookupTimes (appendTime m p e) p = lookupTimes m p ++ [e] := by
  induction m with
  | nil => simp [appendTime, lookupTimes]
  | cons kv rest ih =>
      obtain ⟨k, l⟩ := kv
      by_cases h : k = p
      · simp [appendTime, lookupTimes, h]
      · simp [appendTime, lookupTimes, h, ih]

theorem lookupTimes_trimAt (m : List (String × List ℚ)) (p : String) :
    lookupTimes (trimAt m p) p = trimList (lookupTimes m p) := by
  induction m with
  | nil => simp [trimAt, lookupTimes, trimList]
  | cons kv rest ih =>
      obtain ⟨k, l⟩ := kv
      by_cases h : k = p
      · simp [trimAt, lookupTimes, h]
      · simp [trimAt, lookupTimes, h, ih]

theorem recordEgress_times (s : TrafficMetrics) (p : String)
    (st b : ℕ) (e : ℚ) :
    lookupTimes (recordEgress s p st b e).response_times p
      = trimList (lookupTimes s.response_times p ++ [e]) := by
  show lookupTimes (trimAt (appendTime s.response_times p e) p) p = _
  rw [lookupTimes_trimAt, lookupTimes_appendTime]

theorem foldl_egress_times (P : String) (st b : ℕ) (es : List ℚ) :
    ∀ acc : TrafficMetrics,
    lookupTimes ((es.foldl (fun a e => recordEgress a P st b e)
        acc).response_times) P
      = es.foldl (fun l e => trimList (l ++ [e]))
          (lookupTimes acc.response_times P) := by
  induction es with
  | nil =>
      intro acc
      simp
  | cons e rest ih =>
      intro acc
      rw [List.foldl_cons, List.foldl_cons, ih, recordEgress_times]

theorem foldl_trim_drop (es : List ℚ) :
    ∀ l : List ℚ, l.length ≤ 100 →
    es.foldl (fun l e => trimList (l ++ [e])) l
      = (l ++ es).drop ((l ++ es).length - 100) := by
  induction es with
  | nil =>
      intro l hl
      rw [List.foldl_nil, List.append_nil,
        Nat.sub_eq_zero_of_le hl, List.drop_zero]
  | cons e rest ih =>
      intro l hl
      rw [List.foldl_cons]
      have hlen : (trimList (l ++ [e])).length ≤ 100 := by
        rw [trimList_eq, List.length_drop]
        omega
      rw [ih (trimList (l ++ [e])) hlen, trimList_eq]
      rw [← List.drop_append_of_le_length
        (show (l ++ [e]).length - 100 ≤ (l ++ [e]).length from
          Nat.sub_le _ _),
        List.drop_drop]
      have hsplit : (l ++ [e]) ++ rest = l ++ e :: rest := by
        simp
      rw [hsplit]
      have hx : ∀ i j : ℕ, i = j →
          List.drop i (l ++ e :: rest) = List.drop j (l ++ e :: rest) :=
        fun i j hij => by rw [hij]
      apply hx
      simp only [List.length_drop, List.length_append, List.length_cons,
        List.length_nil]
      omega

/-- C4: after any sequence of egress writes appending latency samples
`es` for path `P`, the stored sequence `response_times[P]` holds at most
100 entries, and once more than 100 samples went in it holds exactly the
100 most-recently-inserted values in insertion order (the oldest
`es.length - 100` evicted). -/
theorem response_times_capacity (es : List ℚ) (P : String) (st b : ℕ) :
    (lookupTimes ((es.foldl (fun a e => recordEgress a P st b e)
        initTraffic).response_times) P).length ≤ 100 ∧
    (100 < es.length →
      lookupTimes ((es.foldl (fun a e => recordEgress a P st b e)
          initTraffic).response_times) P
        = es.drop (es.length - 100)) := by
  have h0 : lookupTimes initTraffic.response_times P = [] := rfl
  have h1 := foldl_egress_times P st b es initTraffic
  rw [h0] at h1
  have h2 := foldl_trim_drop es [] (by simp)
  rw [List.nil_append] at h2
  rw [h1, h2]
  constructor
  · rw [List.length_drop]
    omega
  · intro _
    rfl

/-- C4 witness: 101 distinct samples for one path leave exactly the
latest 100, in order. -/
theorem response_times_capacity_witness :
    100 < sampleLatencies.length ∧
    lookupTimes ((sampleLatencies.foldl
        (fun a e => recordEgress a "/p" 200 4 e)
        initTraffic).response_times) "/p"
      = sampleLatencies.drop (sampleLatencies.length - 100) :=
  ⟨by decide,
   (response_times_capacity sampleLatencies "/p" 200 4).2 (by decide)⟩

end NexaMetrics
